import Mathlib

/-!
Verification development for the `nanoscope` Nanoscope-file parser
(`src/nanoscope/nanoscope.py`).  The Python source is shallowly embedded:

* a header line, already tokenized by the external `parse_parameter`
  capability, becomes a `Parameter` record;
* the parser object state (`self.config`, `self.images`) becomes `PState`.
  Python dictionaries are mutable objects shared by reference: the per-channel
  configuration dictionaries therefore live in an explicit heap
  (`PState.heap`), and `self.images` maps a channel name to a heap index, so
  that aliasing (several channel names sharing one configuration dictionary)
  is represented faithfully;
* `read_header` / `_handle_parameter` / `_read_image_header` become the
  functions of the same names, with the text stream made explicit as a
  `List Parameter`;
* `read_image_data` becomes an `Except`-valued function whose error
  constructors mirror the Python exception raised on each failing path;
* `_flatten_scanline` is modelled over `ℚ` (the numpy floating-point
  arithmetic is idealised as exact arithmetic), with the external
  `np.polyfit` call specified by its least-squares contract.
-/

namespace Nanoscope

/-- The payload of a tokenized header line: a Python value that is either a
number, a string, or `None` (an attribute that the tokenizer left unset). -/
inductive HVal where
  | i (n : Int)
  | s (str : String)
  | pynone
  deriving DecidableEq, Repr

/-- One tokenized header line, as produced by the external `parse_parameter`
capability: `type` is the line kind tag (`"H"` header, `"S"` string
attribute, anything else a scalar attribute), `parameter` the key,
`header` the section name of a header line, `internal_designation` the
channel name of an `"Image Data"` string attribute, `hard_value` the parsed
payload of a scalar line. -/
structure Parameter where
  type : String
  parameter : String
  header : String
  internal_designation : String
  hard_value : HVal
  deriving DecidableEq, Repr

/-- Association list with string keys; insertion prepends, lookup takes the
first match, so later insertions of the same key win — the observable
behaviour of assignment into a Python dictionary. -/
abbrev Config := List (String × HVal)

/-- First-match lookup in an association list (Python `dict` read). -/
def slook {α : Type} : List (String × α) → String → Option α
  | [], _ => none
  | (k, v) :: rest, key => if k = key then some v else slook rest key

@[simp] theorem slook_nil {α : Type} (key : String) :
    slook ([] : List (String × α)) key = none := rfl

@[simp] theorem slook_cons {α : Type} (k : String) (v : α)
    (rest : List (String × α)) (key : String) :
    slook ((k, v) :: rest) key = if k = key then some v else slook rest key := rfl

/-- The mutable state of a `NanoscopeParser` object: `config` is
`self.config`, `heap` holds the per-section configuration dictionaries
(each `_read_image_header` call allocates a fresh one), and `images` is
`self.images`, mapping a channel name to the heap index of its
configuration dictionary. -/
structure PState where
  config : Config
  images : List (String × Nat)
  heap : List Config
  deriving DecidableEq, Repr

/-- The state of a freshly constructed parser: empty `self.config` and
`self.images`, no section dictionary allocated yet. -/
def initState : PState := ⟨[], [], []⟩

/-- `self.config[key] = value`. -/
def PState.setGlobal (st : PState) (k : String) (v : HVal) : PState :=
  { st with config := (k, v) :: st.config }

/-- `image_config[key] = value` for the section dictionary at heap index
`ref` (a no-op if `ref` is out of range, which never happens for the
indices the parser allocates). -/
def PState.setHeap (st : PState) (ref : Nat) (k : String) (v : HVal) : PState :=
  { st with heap := st.heap.set ref ((k, v) :: st.heap.getD ref []) }

/-- `self.images[name] = image_config`, with the dictionary identified by
its heap index. -/
def PState.register (st : PState) (d : String) (ref : Nat) : PState :=
  { st with images := (d, ref) :: st.images }

/-- `image_config = {}`: allocate a fresh empty section dictionary at the
end of the heap. -/
def PState.alloc (st : PState) : PState :=
  { st with heap := st.heap ++ [[]] }

@[simp] theorem setGlobal_images (st : PState) (k : String) (v : HVal) :
    (st.setGlobal k v).images = st.images := rfl
@[simp] theorem setGlobal_heap (st : PState) (k : String) (v : HVal) :
    (st.setGlobal k v).heap = st.heap := rfl
@[simp] theorem setHeap_images (st : PState) (ref : Nat) (k : String) (v : HVal) :
    (st.setHeap ref k v).images = st.images := rfl
@[simp] theorem setHeap_config (st : PState) (ref : Nat) (k : String) (v : HVal) :
    (st.setHeap ref k v).config = st.config := rfl
@[simp] theorem setHeap_heap_length (st : PState) (ref : Nat) (k : String) (v : HVal) :
    (st.setHeap ref k v).heap.length = st.heap.length := by
  simp [PState.setHeap]
@[simp] theorem register_heap (st : PState) (d : String) (ref : Nat) :
    (st.register d ref).heap = st.heap := rfl
@[simp] theorem register_images (st : PState) (d : String) (ref : Nat) :
    (st.register d ref).images = (d, ref) :: st.images := rfl
@[simp] theorem alloc_images (st : PState) : st.alloc.images = st.images := rfl
@[simp] theorem alloc_heap_length (st : PState) :
    st.alloc.heap.length = st.heap.length + 1 := by
  simp [PState.alloc]

/-- Reading the section dictionary at heap index `ref` through key `k`
(`self.images[name][k]` after dereferencing the shared dictionary). -/
def slookHeap (st : PState) (ref : Nat) (k : String) : Option HVal :=
  slook (st.heap.getD ref []) k

/-- Errors that `read_header` can raise: the `ValueError` of the version
guard, and the `AttributeError` hit when `_read_image_header` runs out of
lines and hands `None` back to `_handle_parameter`. -/
inductive HeaderError where
  | unsupportedVersion (v : HVal)
  | attributeError
  deriving DecidableEq, Repr

/-- The loop body of `_read_image_header`: consume records into the section
dictionary at heap index `ref` until a header record is met (which is
returned, not pushed back) or the stream runs out (Python falls off the
`for` loop and returns `None`).  On an `"Image Data"` string attribute the
designation is stored under the `"Image Data"` key and the shared
dictionary is registered in `self.images` under that designation. -/
def rih_loop : List Parameter → Nat → PState → Option Parameter × List Parameter × PState
  | [], _, st => (none, [], st)
  | p :: rest, ref, st =>
    if p.type = "H" then (some p, rest, st)
    else if p.type = "S" then
      if p.parameter = "Image Data" then
        rih_loop rest ref
          ((st.setHeap ref "Image Data" (HVal.s p.internal_designation)).register
            p.internal_designation ref)
      else rih_loop rest ref st
    else rih_loop rest ref (st.setHeap ref p.parameter p.hard_value)

/-- `_read_image_header`: allocate a fresh section dictionary (`image_config
= {}`) and run the section loop on the remaining stream. -/
def read_image_header (l : List Parameter) (st : PState) :
    Option Parameter × List Parameter × PState :=
  rih_loop l st.heap.length st.alloc

/-- A successful `rih_loop` exit that returns a section-ending header has
consumed at least that record. -/
theorem rih_loop_length {l : List Parameter} {ref : Nat} {st : PState}
    {q : Parameter} {rest' : List Parameter} {st' : PState}
    (h : rih_loop l ref st = (some q, rest', st')) : rest'.length < l.length := by
  induction l generalizing st with
  | nil => simp [rih_loop] at h
  | cons p rest ih =>
    by_cases h1 : p.type = "H"
    · simp [rih_loop, h1] at h
      obtain ⟨-, h2, -⟩ := h
      simp [← h2, Nat.lt_succ_self]
    · by_cases h2 : p.type = "S"
      · by_cases h3 : p.parameter = "Image Data" <;>
          · simp [rih_loop, h1, h2, h3] at h
            exact Nat.lt_succ_of_lt (ih h)
      · simp [rih_loop, h1, h2] at h
        exact Nat.lt_succ_of_lt (ih h)

theorem read_image_header_length {l : List Parameter} {st : PState}
    {q : Parameter} {rest' : List Parameter} {st' : PState}
    (h : read_image_header l st = (some q, rest', st')) : rest'.length < l.length :=
  rih_loop_length h

/-- `_handle_parameter`: dispatch one record.  `(true, …)` is Python's
`return True` (the `"File list end"` header was met), `(false, …)` is
`return False`/`return None`.  On a `"Ciao image list"` header the section
reader runs and the record it hands back is re-dispatched; if the stream
ran out inside the section the Python call `_handle_parameter(None, f)`
dies with `AttributeError` on `None.type`. -/
def handle_parameter (p : Parameter) (rest : List Parameter) (st : PState) :
    Except HeaderError (Bool × List Parameter × PState) :=
  if p.type = "H" then
    if p.header = "File list end" then .ok (true, rest, st)
    else if p.header = "Ciao image list" then
      match h : read_image_header rest st with
      | (none, _, _) => .error .attributeError
      | (some q, rest', st') => handle_parameter q rest' st'
    else .ok (false, rest, st)
  else if p.type = "S" then .ok (false, rest, st)
  else .ok (false, rest, st.setGlobal p.parameter p.hard_value)
termination_by rest.length
decreasing_by exact read_image_header_length h

/-- A `_handle_parameter` call never grows the remaining stream. -/
theorem handle_parameter_length {p : Parameter} {rest : List Parameter} {st : PState}
    {b : Bool} {rest' : List Parameter} {st' : PState}
    (h : handle_parameter p rest st = .ok (b, rest', st')) :
    rest'.length ≤ rest.length := by
  induction p, rest, st using handle_parameter.induct with
  | case1 p rest st h1 h2 =>
    rw [handle_parameter, if_pos h1, if_pos h2] at h
    cases h
    exact Nat.le_refl _
  | case2 p rest st h1 h2 h3 l₁ st₁ heq =>
    rw [handle_parameter, if_pos h1, if_neg h2, if_pos h3, heq] at h
    cases h
  | case3 p rest st h1 h2 h3 q rest₁ st₁ heq ih =>
    rw [handle_parameter, if_pos h1, if_neg h2, if_pos h3, heq] at h
    exact Nat.le_of_lt (Nat.lt_of_le_of_lt (ih h) (read_image_header_length heq))
  | case4 p rest st h1 h2 h3 =>
    rw [handle_parameter, if_pos h1, if_neg h2, if_neg h3] at h
    cases h
    exact Nat.le_refl _
  | case5 p rest st h1 h2 =>
    rw [handle_parameter, if_neg h1, if_pos h2] at h
    cases h
    exact Nat.le_refl _
  | case6 p rest st h1 h2 =>
    rw [handle_parameter, if_neg h1, if_neg h2] at h
    cases h
    exact Nat.le_refl _

/-- `read_header`: the top-level line loop.  Each record consumed at top
level is first checked by the version guard (`type != 'H' and parameter ==
'Version'` with a hard value other than `"0x05120130"` raises
`ValueError`), then dispatched; the loop stops when `_handle_parameter`
returns `True`, or silently when the stream runs out. -/
def read_header : List Parameter → PState → Except HeaderError PState
  | [], st => .ok st
  | p :: rest, st =>
    if p.type ≠ "H" ∧ p.parameter = "Version" ∧ p.hard_value ≠ HVal.s "0x05120130" then
      .error (.unsupportedVersion p.hard_value)
    else
      match h : handle_parameter p rest st with
      | .error e => .error e
      | .ok (true, _, st') => .ok st'
      | .ok (false, rest', st') => read_header rest' st'
termination_by l => l.length
decreasing_by exact Nat.lt_succ_of_le (handle_parameter_length h)

/-- Errors that `read_image_data` can raise; each constructor mirrors a
Python exception of the source:
`ValueError('Unsupported image type …')`, `ValueError('… not in file.')`,
`KeyError` from a missing dictionary key, `TypeError` from seeking or
dividing with a non-numeric value, `ValueError` from a negative seek,
`ZeroDivisionError`, `struct.error` from `unpack_from` (bad format string
for a negative count, or a buffer shorter than the format needs),
`ValueError('can only specify one unknown dimension')` from `reshape`
with more than one negative dimension, and
`ValueError('cannot reshape array …')` when the element count does not
fit the requested shape. -/
inductive DecodeError where
  | unsupportedImageType (t : String)
  | imageTypeNotInFile (t : String)
  | keyError (k : String)
  | typeError
  | negativeSeek
  | zeroDivisionError
  | structError
  | multipleUnknownDims
  | shapeMismatch
  deriving DecidableEq, Repr

/-- Decode consecutive byte pairs as signed little-endian 16-bit integers
(`struct.unpack_from('<Nh', …)`); a trailing odd byte is never consumed
because the caller passes exactly `2 * num` bytes. -/
def decodeLE16 : List Nat → List Int
  | lo :: hi :: rest =>
    (if 32768 ≤ lo + 256 * hi then (lo : Int) + 256 * hi - 65536
     else (lo : Int) + 256 * hi) :: decodeLE16 rest
  | _ => []

/-- Cutting a flat row-major sample list into `lines` rows of `samps`
consecutive samples each. -/
def chunkRows : Nat → Nat → List Int → List (List Int)
  | 0, _, _ => []
  | n + 1, s, xs => xs.take s :: chunkRows n s (xs.drop s)

/-- `raw.reshape((lines, samps))` with numpy semantics: a negative
dimension is an *unknown* to be inferred from the array size — at most one
unknown is allowed (`ValueError: can only specify one unknown dimension`
otherwise); with one unknown, the known dimension must be non-zero and
divide the array size, and the unknown is the quotient; with no unknown
the product of the dimensions must equal the array size.  The failing
size checks raise `ValueError('cannot reshape array …')`. -/
def np_reshape (lines samps : Int) (raw : List Int) :
    Except DecodeError (List (List Int)) :=
  if lines < 0 ∧ samps < 0 then .error .multipleUnknownDims
  else if lines < 0 then
    if samps.toNat = 0 ∨ raw.length % samps.toNat ≠ 0 then .error .shapeMismatch
    else .ok (chunkRows (raw.length / samps.toNat) samps.toNat raw)
  else if samps < 0 then
    if lines.toNat = 0 ∨ raw.length % lines.toNat ≠ 0 then .error .shapeMismatch
    else .ok (chunkRows lines.toNat (raw.length / lines.toNat) raw)
  else if lines.toNat * samps.toNat ≠ raw.length then .error .shapeMismatch
  else .ok (chunkRows lines.toNat samps.toNat raw)

/-- `read_image_data`, transcribed line by line.  The binary file is the
byte list `file`; `f.seek(offset)` followed by `f.read(dlen)` yields
`(file.drop offset).take dlen` (and a negative `read` length reads to the
end of the file).  `num = int(config['Data length'] / config['Bytes/pixel'])`
is Python true division truncated toward zero, i.e. `Int.tdiv` (the numpy
float rounding of huge quotients is idealised away).  The final
`raw_data.reshape((lines, samps))` is `np_reshape`, numpy reshape with
unknown-dimension inference.  Dictionary lookups, type checks and failure
points appear in the evaluation order of the source. -/
def read_image_data (file : List Nat) (st : PState) (image_type : String) :
    Except DecodeError (List (List Int)) :=
  if image_type ∉ ["Height", "Amplitude", "Phase"] then
    .error (.unsupportedImageType image_type)
  else
    match slook st.images image_type with
    | none => .error (.imageTypeNotInFile image_type)
    | some ref =>
      let config := st.heap.getD ref []
      match slook config "Data offset" with
      | none => .error (.keyError "Data offset")
      | some (HVal.s _) => .error .typeError
      | some HVal.pynone => .error .typeError
      | some (HVal.i off) =>
        if off < 0 then .error .negativeSeek
        else
          match slook config "Data length" with
          | none => .error (.keyError "Data length")
          | some dlv =>
            match slook config "Bytes/pixel" with
            | none => .error (.keyError "Bytes/pixel")
            | some bpv =>
              match dlv, bpv with
              | HVal.i dlen, HVal.i bpp =>
                if bpp = 0 then .error .zeroDivisionError
                else
                  let num : Int := Int.tdiv dlen bpp
                  let buf : List Nat :=
                    if dlen < 0 then file.drop off.toNat
                    else (file.drop off.toNat).take dlen.toNat
                  if num < 0 then .error .structError
                  else if buf.length < 2 * num.toNat then .error .structError
                  else
                    let raw : List Int := decodeLE16 (buf.take (2 * num.toNat))
                    match slook config "Number of lines" with
                    | none => .error (.keyError "Number of lines")
                    | some lv =>
                      match slook config "Samps/line" with
                      | none => .error (.keyError "Samps/line")
                      | some sv =>
                        match lv, sv with
                        | HVal.i lines, HVal.i samps => np_reshape lines samps raw
                        | _, _ => .error .typeError
              | _, _ => .error .typeError

/-- The `read_image_data` method call as seen by the object: the body reads
`self.images` and the shared section dictionaries but contains no
assignment to `self`, so the parser state after the call is the state
before it. -/
def read_image_data_call (file : List Nat) (st : PState) (image_type : String) :
    Except DecodeError (List (List Int)) × PState :=
  (read_image_data file st image_type, st)

/-- Modelled from the spec: the two-state section walk of §4.1, collecting
only the internal designations of the `"Image Data"` string attributes
observed inside `"Ciao image list"` sections.  `none` when the stream runs
out before the top-level `"File list end"` header. -/
def specDesignations : List Parameter → Bool → Option (List String)
  | [], _ => none
  | p :: rest, inSection =>
    if p.type = "H" then
      if p.header = "File list end" then some []
      else if p.header = "Ciao image list" then specDesignations rest true
      else specDesignations rest false
    else if inSection = true ∧ p.type = "S" ∧ p.parameter = "Image Data" then
      (specDesignations rest true).map (p.internal_designation :: ·)
    else specDesignations rest inSection

/-- The value at index `i` of the fitted polynomial, transcribed from
`sum([pow(i, n) * c for n, c in enumerate(reversed(coefficients))])`. -/
def polyEvalAt (coefficients : List ℚ) (i : Nat) : ℚ :=
  ((coefficients.reverse.enum).map (fun nc => (i : ℚ) ^ nc.1 * nc.2)).sum

/-- `_flatten_scanline` after the `np.polyfit` call: subtract the fitted
value at each index from the sample at that index (`data - correction`). -/
def flatten_scanline (data : List ℚ) (coefficients : List ℚ) : List ℚ :=
  data.enum.map (fun ix => ix.2 - polyEvalAt coefficients ix.1)

/-- Sum of squared residuals of a candidate coefficient list against the
rows `(i, data[i])`, the functional that `np.polyfit` minimises. -/
def sqResid (data : List ℚ) (coefficients : List ℚ) : ℚ :=
  (data.enum.map (fun ix => (polyEvalAt coefficients ix.1 - ix.2) ^ 2)).sum

/-- Modelled from the spec: `np.polyfit(range(len(data)), data, 0)` (the
external fitting routine) returns the single coefficient of the
least-squares constant fit, i.e. any `c` minimising the sum of squared
residuals among constant polynomials. -/
def IsPolyfit0 (data : List ℚ) (c : ℚ) : Prop :=
  ∀ c' : ℚ, sqResid data [c] ≤ sqResid data [c']

/-- The arithmetic mean of a row. -/
def mean (data : List ℚ) : ℚ := data.sum / data.length

/-! ### Basic lemmas about the section loop -/

theorem getD_set_self (st : PState) (ref : Nat) (c : Config)
    (h : ref < st.heap.length) : (st.heap.set ref c).getD ref [] = c := by
  simp [List.getElem?_set_eq_of_lt _ h]

theorem slookHeap_setHeap_self (st : PState) (ref : Nat) (k : String) (v : HVal)
    (h : ref < st.heap.length) :
    slookHeap (st.setHeap ref k v) ref k = some v := by
  simp only [slookHeap, PState.setHeap]
  rw [getD_set_self st ref _ h]
  simp

theorem slookHeap_setHeap_mono (st : PState) (ref : Nat) (k k' : String) (v : HVal)
    (h : (slookHeap st ref k).isSome = true) :
    (slookHeap (st.setHeap ref k' v) ref k).isSome = true := by
  by_cases hr : ref < st.heap.length
  · simp only [slookHeap, PState.setHeap] at h ⊢
    rw [getD_set_self st ref _ hr]
    by_cases hk : k' = k
    · simp [hk]
    · simpa [hk] using h
  · have e : st.heap.set ref ((k', v) :: st.heap.getD ref []) = st.heap :=
      List.set_eq_of_length_le (Nat.le_of_not_lt hr)
    simp only [slookHeap, PState.setHeap] at h ⊢
    rw [e]
    exact h

theorem slookHeap_register (st : PState) (d : String) (r ref : Nat) (k : String) :
    slookHeap (st.register d r) ref k = slookHeap st ref k := rfl

/-- The section loop never changes the heap size (it only rewrites the
dictionary it was given). -/
theorem rih_heap_length (l : List Parameter) (ref : Nat) (st : PState) :
    ((rih_loop l ref st).2.2).heap.length = st.heap.length := by
  induction l generalizing st with
  | nil => rfl
  | cons p rest ih =>
    by_cases h1 : p.type = "H"
    · simp [rih_loop, h1]
    · by_cases h2 : p.type = "S"
      · by_cases h3 : p.parameter = "Image Data" <;>
          simp [rih_loop, h1, h2, h3, ih, PState.register, PState.setHeap]
      · simp [rih_loop, h1, h2, ih, PState.setHeap]

/-- Every registration the section loop performs maps a name to the loop's
own dictionary `ref`; hence a name already mapped to `ref` stays mapped to
`ref`. -/
theorem rih_images_fixed (l : List Parameter) (ref : Nat) (st : PState) (d : String)
    (h : slook st.images d = some ref) :
    slook ((rih_loop l ref st).2.2).images d = some ref := by
  induction l generalizing st with
  | nil => exact h
  | cons p rest ih =>
    by_cases h1 : p.type = "H"
    · simpa [rih_loop, h1] using h
    · by_cases h2 : p.type = "S"
      · by_cases h3 : p.parameter = "Image Data"
        · rw [rih_loop, if_neg h1, if_pos h2, if_pos h3]
          apply ih
          by_cases h4 : p.internal_designation = d <;>
            simp [PState.register, PState.setHeap, h4, h]
        · simpa [rih_loop, h1, h2, h3] using ih st h
      · rw [rih_loop, if_neg h1, if_neg h2]
        exact ih _ (by simpa [PState.setHeap] using h)

/-- A key present in the loop's dictionary stays present: the loop only
prepends entries. -/
theorem rih_heapKey_mono (l : List Parameter) (ref : Nat) (st : PState) (k : String)
    (h : (slookHeap st ref k).isSome = true) :
    (slookHeap ((rih_loop l ref st).2.2) ref k).isSome = true := by
  induction l generalizing st with
  | nil => exact h
  | cons p rest ih =>
    by_cases h1 : p.type = "H"
    · simpa [rih_loop, h1] using h
    · by_cases h2 : p.type = "S"
      · by_cases h3 : p.parameter = "Image Data"
        · rw [rih_loop, if_neg h1, if_pos h2, if_pos h3]
          apply ih
          rw [slookHeap_register]
          exact slookHeap_setHeap_mono st ref k _ _ h
        · simpa [rih_loop, h1, h2, h3] using ih st h
      · rw [rih_loop, if_neg h1, if_neg h2]
        exact ih _ (slookHeap_setHeap_mono st ref k _ _ h)

/-- Once the loop consumes an `"Image Data"` string attribute, its
designation is registered to the loop's dictionary, whatever records
follow — also when the section is never terminated. -/
theorem rih_registers (l₁ l₂ : List Parameter) (p : Parameter) (ref : Nat) (st : PState)
    (h₁ : ∀ q ∈ l₁, q.type ≠ "H") (hp : p.type = "S") (hpn : p.parameter = "Image Data") :
    slook ((rih_loop (l₁ ++ p :: l₂) ref st).2.2).images p.internal_designation = some ref := by
  induction l₁ generalizing st with
  | nil =>
    rw [List.nil_append, rih_loop, if_neg (by simp [hp]), if_pos hp, if_pos hpn]
    exact rih_images_fixed l₂ ref _ _ (by simp)
  | cons q rest ih =>
    have hq : q.type ≠ "H" := h₁ q (by simp)
    have hrest : ∀ r ∈ rest, r.type ≠ "H" := fun r hr => h₁ r (by simp [hr])
    rw [List.cons_append]
    by_cases h2 : q.type = "S"
    · by_cases h3 : q.parameter = "Image Data"
      · rw [rih_loop, if_neg hq, if_pos h2, if_pos h3]
        exact ih _ hrest
      · rw [rih_loop, if_neg hq, if_pos h2, if_neg h3]
        exact ih st hrest
    · rw [rih_loop, if_neg hq, if_neg h2]
      exact ih _ hrest

/-- A scalar attribute consumed by the section loop leaves its key present
in the loop's dictionary for good. -/
theorem rih_scalarKey (l₀ rest : List Parameter) (q : Parameter) (ref : Nat) (st : PState)
    (h₀ : ∀ r ∈ l₀, r.type ≠ "H") (hqH : q.type ≠ "H") (hqS : q.type ≠ "S")
    (hlen : ref < st.heap.length) :
    (slookHeap ((rih_loop (l₀ ++ q :: rest) ref st).2.2) ref q.parameter).isSome = true := by
  induction l₀ generalizing st with
  | nil =>
    rw [List.nil_append, rih_loop, if_neg hqH, if_neg hqS]
    exact rih_heapKey_mono rest ref _ _
      (by simp [slookHeap_setHeap_self st ref _ _ hlen])
  | cons r rest₀ ih =>
    have hr : r.type ≠ "H" := h₀ r (by simp)
    have hrest : ∀ x ∈ rest₀, x.type ≠ "H" := fun x hx => h₀ x (by simp [hx])
    rw [List.cons_append]
    by_cases h2 : r.type = "S"
    · by_cases h3 : r.parameter = "Image Data"
      · rw [rih_loop, if_neg hr, if_pos h2, if_pos h3]
        exact ih _ hrest (by simpa [PState.register, PState.setHeap] using hlen)
      · rw [rih_loop, if_neg hr, if_pos h2, if_neg h3]
        exact ih st hrest hlen
    · rw [rih_loop, if_neg hr, if_neg h2]
      exact ih _ hrest (by simpa [PState.setHeap] using hlen)

/-- Running the section loop over a header-free prefix and then a header:
the header is handed back together with the stream after it, and the state
is the state after the prefix. -/
theorem rih_chain (l rest : List Parameter) (pH : Parameter) (ref : Nat) (st : PState)
    (h : ∀ q ∈ l, q.type ≠ "H") (hH : pH.type = "H") :
    rih_loop (l ++ pH :: rest) ref st = (some pH, rest, (rih_loop l ref st).2.2) := by
  induction l generalizing st with
  | nil => simp [rih_loop, hH]
  | cons q rest₀ ih =>
    have hq : q.type ≠ "H" := h q (by simp)
    have hrest : ∀ r ∈ rest₀, r.type ≠ "H" := fun r hr => h r (by simp [hr])
    rw [List.cons_append]
    by_cases h2 : q.type = "S"
    · by_cases h3 : q.parameter = "Image Data"
      · rw [rih_loop, if_neg hq, if_pos h2, if_pos h3, ih _ hrest,
          rih_loop, if_neg hq, if_pos h2, if_pos h3]
      · rw [rih_loop, if_neg hq, if_pos h2, if_neg h3, ih _ hrest,
          rih_loop, if_neg hq, if_pos h2, if_neg h3]
    · rw [rih_loop, if_neg hq, if_neg h2, ih _ hrest,
        rih_loop, if_neg hq, if_neg h2]

/-- A header-free stream exhausts the section loop: Python falls off the
`for` loop and returns `None`. -/
theorem rih_exhaust (l : List Parameter) (ref : Nat) (st : PState)
    (h : ∀ q ∈ l, q.type ≠ "H") :
    (rih_loop l ref st).1 = none ∧ (rih_loop l ref st).2.1 = [] := by
  induction l generalizing st with
  | nil => exact ⟨rfl, rfl⟩
  | cons q rest ih =>
    have hq : q.type ≠ "H" := h q (by simp)
    have hrest : ∀ r ∈ rest, r.type ≠ "H" := fun r hr => h r (by simp [hr])
    by_cases h2 : q.type = "S"
    · by_cases h3 : q.parameter = "Image Data"
      · rw [rih_loop, if_neg hq, if_pos h2, if_pos h3]
        exact ih _ hrest
      · rw [rih_loop, if_neg hq, if_pos h2, if_neg h3]
        exact ih st hrest
    · rw [rih_loop, if_neg hq, if_neg h2]
      exact ih _ hrest

/-! ### Step lemmas for the top-level loop -/

theorem read_header_nil (st : PState) : read_header [] st = .ok st := by
  rw [read_header]

theorem handle_parameter_end (p : Parameter) (rest : List Parameter) (st : PState)
    (hH : p.type = "H") (h1 : p.header = "File list end") :
    handle_parameter p rest st = .ok (true, rest, st) := by
  rw [handle_parameter, if_pos hH, if_pos h1]

theorem handle_parameter_otherH (p : Parameter) (rest : List Parameter) (st : PState)
    (hH : p.type = "H") (h1 : p.header ≠ "File list end") (h2 : p.header ≠ "Ciao image list") :
    handle_parameter p rest st = .ok (false, rest, st) := by
  rw [handle_parameter, if_pos hH, if_neg h1, if_neg h2]

theorem handle_parameter_stringAttr (p : Parameter) (rest : List Parameter) (st : PState)
    (hH : p.type ≠ "H") (hS : p.type = "S") :
    handle_parameter p rest st = .ok (false, rest, st) := by
  rw [handle_parameter, if_neg hH, if_pos hS]

theorem handle_parameter_scalar (p : Parameter) (rest : List Parameter) (st : PState)
    (hH : p.type ≠ "H") (hS : p.type ≠ "S") :
    handle_parameter p rest st = .ok (false, rest, st.setGlobal p.parameter p.hard_value) := by
  rw [handle_parameter, if_neg hH, if_neg hS]

theorem handle_parameter_ciao (p : Parameter) (rest : List Parameter) (st : PState)
    (q : Parameter) (rest' : List Parameter) (st' : PState)
    (hH : p.type = "H") (h1 : p.header ≠ "File list end") (h2 : p.header = "Ciao image list")
    (heq : read_image_header rest st = (some q, rest', st')) :
    handle_parameter p rest st = handle_parameter q rest' st' := by
  rw [handle_parameter, if_pos hH, if_neg h1, if_pos h2, heq]

theorem handle_parameter_ciao_none (p : Parameter) (rest : List Parameter) (st : PState)
    (hH : p.type = "H") (h1 : p.header ≠ "File list end") (h2 : p.header = "Ciao image list")
    (heq : (read_image_header rest st).1 = none) :
    handle_parameter p rest st = .error .attributeError := by
  have heq' : read_image_header rest st =
      (none, (read_image_header rest st).2.1, (read_image_header rest st).2.2) := by
    rw [← heq]
  rw [handle_parameter, if_pos hH, if_neg h1, if_pos h2, heq']

theorem read_header_cons_err (p : Parameter) (rest : List Parameter) (st : PState)
    (e : HeaderError)
    (hver : ¬(p.type ≠ "H" ∧ p.parameter = "Version" ∧ p.hard_value ≠ HVal.s "0x05120130"))
    (hh : handle_parameter p rest st = .error e) :
    read_header (p :: rest) st = .error e := by
  rw [read_header, if_neg hver, hh]

theorem read_header_cons_ok (p : Parameter) (rest : List Parameter) (st : PState)
    (b : Bool) (rest' : List Parameter) (st' : PState)
    (hver : ¬(p.type ≠ "H" ∧ p.parameter = "Version" ∧ p.hard_value ≠ HVal.s "0x05120130"))
    (hh : handle_parameter p rest st = .ok (b, rest', st')) :
    read_header (p :: rest) st = if b then .ok st' else read_header rest' st' := by
  rw [read_header, if_neg hver, hh]
  cases b <;> rfl

/-! ### Claim theorems -/

/-- C3 — for every record consumed at the top level whose kind is not
`Header` and whose name is `"Version"`, a hard value other than the string
`"0x05120130"` makes `read_header` fail at once with the
unsupported-version error: the result is this error for every possible
continuation `rest` of the stream, so no further record is consumed. -/
theorem read_header_version_guard (p : Parameter) (rest : List Parameter) (st : PState)
    (h1 : p.type ≠ "H") (h2 : p.parameter = "Version")
    (h3 : p.hard_value ≠ HVal.s "0x05120130") :
    read_header (p :: rest) st = .error (.unsupportedVersion p.hard_value) := by
  rw [read_header, if_pos ⟨h1, h2, h3⟩]

theorem read_header_version_guard_witness :
    (⟨"V", "Version", "", "", HVal.s "0x09999999"⟩ : Parameter).type ≠ "H" ∧
    read_header [⟨"V", "Version", "", "", HVal.s "0x09999999"⟩] initState =
      .error (.unsupportedVersion (HVal.s "0x09999999")) :=
  ⟨by decide,
    read_header_version_guard ⟨"V", "Version", "", "", HVal.s "0x09999999"⟩ [] initState
      (by decide) rfl (by decide)⟩

/-- C1 counterexample — the claim says a header stream that runs out of
records before a top-level `"File list end"` makes `read_header` fail and
never yields a partially built document.  On the one-record stream below
(a scalar, no terminator) the code instead returns successfully, with the
scalar already accumulated in the partially built global configuration:
Python's `for` loop simply ends and `read_header` falls through. -/
theorem read_header_partial_cex :
    read_header [⟨"V", "Samps", "", "", HVal.i 3⟩] initState =
      .ok ⟨[("Samps", HVal.i 3)], [], []⟩ := by
  rw [read_header_cons_ok _ _ _ _ _ _ (by decide)
    (handle_parameter_scalar _ _ _ (by decide) (by decide))]
  rw [if_neg (by decide), read_header_nil]
  rfl

/-- A stream whose records never open a section and never carry the
terminating marker (and never trip the version guard) is fully consumed by
the top-level loop, which then returns whatever state was accumulated. -/
theorem read_header_no_marker (ps : List Parameter) : ∀ st : PState,
    (∀ p ∈ ps, p.parameter = "Version" → p.type ≠ "H" →
      p.hard_value = HVal.s "0x05120130") →
    (∀ p ∈ ps, p.type = "H" → p.header ≠ "File list end" ∧ p.header ≠ "Ciao image list") →
    ∃ st', read_header ps st = .ok st' := by
  induction ps with
  | nil => exact fun st _ _ => ⟨st, read_header_nil st⟩
  | cons p rest ih =>
    intro st hv hh
    have hver : ¬(p.type ≠ "H" ∧ p.parameter = "Version" ∧
        p.hard_value ≠ HVal.s "0x05120130") := by
      rintro ⟨a, b, c⟩
      exact c (hv p (by simp) b a)
    have hv' : ∀ p ∈ rest, p.parameter = "Version" → p.type ≠ "H" →
        p.hard_value = HVal.s "0x05120130" := fun q hq => hv q (by simp [hq])
    have hh' : ∀ p ∈ rest, p.type = "H" →
        p.header ≠ "File list end" ∧ p.header ≠ "Ciao image list" :=
      fun q hq => hh q (by simp [hq])
    by_cases h1 : p.type = "H"
    · obtain ⟨e1, e2⟩ := hh p (by simp) h1
      rw [read_header_cons_ok _ _ _ _ _ _ hver (handle_parameter_otherH _ _ _ h1 e1 e2),
        if_neg (by simp)]
      exact ih st hv' hh'
    · by_cases h2 : p.type = "S"
      · rw [read_header_cons_ok _ _ _ _ _ _ hver (handle_parameter_stringAttr _ _ _ h1 h2),
          if_neg (by simp)]
        exact ih st hv' hh'
      · rw [read_header_cons_ok _ _ _ _ _ _ hver (handle_parameter_scalar _ _ _ h1 h2),
          if_neg (by simp)]
        exact ih _ hv' hh'

/-- C1 amended — when the record stream runs out at the top level (no
`"File list end"`, no `"Ciao image list"` section opened), `read_header`
does not fail at all: it returns the partially built state.  Only a stream
that ends in the middle of a `"Ciao image list"` section fails, and then
with the `AttributeError` from dispatching the absent section terminator,
not with a structural parse error (the code has none). -/
theorem read_header_truncated (ps : List Parameter) (st : PState)
    (hv : ∀ p ∈ ps, p.parameter = "Version" → p.type ≠ "H" →
      p.hard_value = HVal.s "0x05120130") :
    ((∀ p ∈ ps, p.type = "H" → p.header ≠ "File list end" ∧ p.header ≠ "Ciao image list") →
      ∃ st', read_header ps st = .ok st') ∧
    (∀ pC : Parameter, pC.type = "H" → pC.header = "Ciao image list" →
      (∀ q ∈ ps, q.type ≠ "H") →
      read_header (pC :: ps) st = .error .attributeError) := by
  constructor
  · exact read_header_no_marker ps st hv
  · intro pC h1 h2 h3
    have hver : ¬(pC.type ≠ "H" ∧ pC.parameter = "Version" ∧
        pC.hard_value ≠ HVal.s "0x05120130") := by
      rintro ⟨a, -, -⟩
      exact a h1
    have hnone : (read_image_header ps st).1 = none :=
      (rih_exhaust ps st.heap.length st.alloc h3).1
    exact read_header_cons_err _ _ _ _ hver
      (handle_parameter_ciao_none _ _ _ h1 (by rw [h2]; decide) h2 hnone)

theorem read_header_truncated_witness :
    (∃ st', read_header [⟨"V", "Samps", "", "", HVal.i 3⟩] initState = .ok st') ∧
    read_header [⟨"H", "", "Ciao image list", "", HVal.pynone⟩,
        ⟨"V", "Samps", "", "", HVal.i 3⟩] initState = .error .attributeError := by
  obtain ⟨a, b⟩ := read_header_truncated [⟨"V", "Samps", "", "", HVal.i 3⟩] initState
    (by decide)
  exact ⟨a (by decide), b ⟨"H", "", "Ciao image list", "", HVal.pynone⟩ rfl rfl (by decide)⟩

/-- C2 counterexample — the claim says decoding succeeds iff
`Data length / Bytes per pixel` equals `lines * samps` as exact integers
(`5 / 2 = 1 * 2` would have to hold exactly, and a non-integral quotient
would have to be an error).  With `Data length = 5`, `Bytes/pixel = 2`,
`1 × 2` grid and five data bytes on file, `5 = 2 * (1 * 2)` is false and
`5 / 2` is not even integral, yet the decode succeeds: the source truncates
with `int(5 / 2) = 2` and never raises the shape-mismatch error. -/
theorem read_image_data_div_cex :
    read_image_data [0, 0, 0, 0, 0]
        ⟨[], [("Height", 0)],
          [[("Data offset", HVal.i 0), ("Data length", HVal.i 5), ("Bytes/pixel", HVal.i 2),
            ("Number of lines", HVal.i 1), ("Samps/line", HVal.i 2)]]⟩ "Height" =
      .ok [[0, 0]] ∧ (5 : Int) ≠ 2 * (1 * 2) := by
  exact ⟨rfl, by decide⟩

/-- C7 — `read_image_data` rejects a channel name outside
`{Height, Amplitude, Phase}` with the unsupported-type error, and a name in
that set but absent from `self.images` with the not-in-file error.  Both
checks precede any touch of the binary file: the result is the same for
every byte list `file`. -/
theorem read_image_data_gate (file : List Nat) (st : PState) (t : String) :
    (t ∉ (["Height", "Amplitude", "Phase"] : List String) →
      read_image_data file st t = .error (.unsupportedImageType t)) ∧
    (t ∈ (["Height", "Amplitude", "Phase"] : List String) →
      slook st.images t = none →
      read_image_data file st t = .error (.imageTypeNotInFile t)) := by
  constructor
  · intro h
    rw [read_image_data, if_pos h]
  · intro h1 h2
    rw [read_image_data, if_neg (not_not_intro h1), h2]

theorem read_image_data_gate_witness :
    ("Foo" ∉ (["Height", "Amplitude", "Phase"] : List String)) ∧
    read_image_data [] initState "Foo" = .error (.unsupportedImageType "Foo") ∧
    ("Phase" ∈ (["Height", "Amplitude", "Phase"] : List String)) ∧
    slook initState.images "Phase" = none ∧
    read_image_data [] initState "Phase" = .error (.imageTypeNotInFile "Phase") :=
  ⟨by decide, (read_image_data_gate [] initState "Foo").1 (by decide), by decide, rfl,
    (read_image_data_gate [] initState "Phase").2 (by decide) rfl⟩

/-- C8 — the decode method body contains no assignment to the parser
object, so the call returns the document state unchanged (global
configuration, channel map and the shared section dictionaries), and a
second decode of the same channel against the unmodified file yields the
bit-identical grid. -/
theorem read_image_data_idem (file : List Nat) (st : PState) (t : String) :
    (read_image_data_call file st t).2 = st ∧
    (read_image_data_call file (read_image_data_call file st t).2 t).1 =
      (read_image_data_call file st t).1 :=
  ⟨rfl, rfl⟩

/-- `struct.unpack_from('<Nh', …)` yields one sample per byte pair. -/
theorem decodeLE16_length : ∀ l : List Nat, (decodeLE16 l).length = l.length / 2
  | [] => rfl
  | [_] => by simp [decodeLE16]
  | _ :: _ :: rest => by
    simp only [decodeLE16, List.length_cons, decodeLE16_length rest]
    omega

/-- Success and failure of `np_reshape` in terms of the requested
dimensions and the array size: no unknown dimension demands an exact
product, one unknown (negative) dimension demands a positive known one
dividing the size, two unknowns always fail; and a failing exact-product
check (no unknowns) is precisely the shape-mismatch error. -/
theorem np_reshape_spec (lines samps : Int) (raw : List Int) :
    ((∃ g, np_reshape lines samps raw = .ok g) ↔
      ((0 ≤ lines ∧ 0 ≤ samps ∧ lines.toNat * samps.toNat = raw.length) ∨
        (lines < 0 ∧ 0 < samps ∧ samps.toNat ∣ raw.length) ∨
        (samps < 0 ∧ 0 < lines ∧ lines.toNat ∣ raw.length))) ∧
    ((0 ≤ lines ∧ 0 ≤ samps ∧ lines.toNat * samps.toNat ≠ raw.length) →
      np_reshape lines samps raw = .error .shapeMismatch) := by
  constructor
  · by_cases c1 : lines < 0 ∧ samps < 0
    · rw [np_reshape, if_pos c1]
      constructor
      · rintro ⟨g, hg⟩
        cases hg
      · intro h
        exfalso
        rcases h with ⟨a, -, -⟩ | ⟨-, b, -⟩ | ⟨-, b, -⟩ <;> omega
    · rw [np_reshape, if_neg c1]
      by_cases c2 : lines < 0
      · rw [if_pos c2]
        have hs : 0 ≤ samps := by omega
        by_cases c3 : samps.toNat = 0 ∨ raw.length % samps.toNat ≠ 0
        · rw [if_pos c3]
          constructor
          · rintro ⟨g, hg⟩
            cases hg
          · intro h
            exfalso
            rcases h with ⟨a, -, -⟩ | ⟨-, b, hd⟩ | ⟨c, -, -⟩
            · omega
            · rcases c3 with c3 | c3
              · omega
              · exact c3 (Nat.dvd_iff_mod_eq_zero.mp hd)
            · omega
        · rw [if_neg c3]
          push_neg at c3
          constructor
          · rintro -
            exact Or.inr (Or.inl ⟨c2, by omega, Nat.dvd_iff_mod_eq_zero.mpr c3.2⟩)
          · rintro -
            exact ⟨_, rfl⟩
      · rw [if_neg c2]
        by_cases c4 : samps < 0
        · rw [if_pos c4]
          have hl : 0 ≤ lines := by omega
          by_cases c3 : lines.toNat = 0 ∨ raw.length % lines.toNat ≠ 0
          · rw [if_pos c3]
            constructor
            · rintro ⟨g, hg⟩
              cases hg
            · intro h
              exfalso
              rcases h with ⟨-, a, -⟩ | ⟨a, -, -⟩ | ⟨-, b, hd⟩
              · omega
              · omega
              · rcases c3 with c3 | c3
                · omega
                · exact c3 (Nat.dvd_iff_mod_eq_zero.mp hd)
          · rw [if_neg c3]
            push_neg at c3
            constructor
            · rintro -
              exact Or.inr (Or.inr ⟨c4, by omega, Nat.dvd_iff_mod_eq_zero.mpr c3.2⟩)
            · rintro -
              exact ⟨_, rfl⟩
        · rw [if_neg c4]
          by_cases c5 : lines.toNat * samps.toNat ≠ raw.length
          · rw [if_pos c5]
            constructor
            · rintro ⟨g, hg⟩
              cases hg
            · intro h
              exfalso
              rcases h with ⟨-, -, e⟩ | ⟨a, -, -⟩ | ⟨a, -, -⟩
              · exact c5 e
              · omega
              · omega
          · rw [if_neg c5]
            push_neg at c5
            constructor
            · rintro -
              exact Or.inl ⟨by omega, by omega, c5⟩
            · rintro -
              exact ⟨_, rfl⟩
  · rintro ⟨hl, hs, hne⟩
    rw [np_reshape, if_neg (by omega), if_neg (by omega), if_neg (by omega), if_pos hne]

/-- C2 amended — for a registered channel whose five required fields are
all numeric, with `Bytes/pixel > 0`, a non-negative offset and length, and
a file long enough for the declared window, decoding succeeds iff the
buffer holds the `2`-byte samples the decoder always unpacks
(`2 * tdiv (Data length) (Bytes/pixel) ≤ Data length`) and the declared
geometry fits the sample count `tdiv (Data length) (Bytes/pixel)` — the
*truncated* quotient `int(D / B)` of the source, not the claim's exact
quotient — under numpy's reshape rules: non-negative `lines`, `samps` with
`tdiv D B = lines * samps`, or exactly one negative (inferred) dimension
whose positive partner divides the sample count.  When both dimensions are
declared (non-negative), the byte budget is fine, and the truncated
quotient differs from `lines * samps`, the failure is exactly the reshape
shape-mismatch error. -/
theorem read_image_data_shape (file : List Nat) (st : PState) (t : String)
    (ref : Nat) (cfg : Config) (off dlen bpp lines samps : Int)
    (ht : t ∈ (["Height", "Amplitude", "Phase"] : List String))
    (href : slook st.images t = some ref)
    (hcfg : st.heap.getD ref [] = cfg)
    (h1 : slook cfg "Data offset" = some (HVal.i off))
    (h2 : slook cfg "Data length" = some (HVal.i dlen))
    (h3 : slook cfg "Bytes/pixel" = some (HVal.i bpp))
    (h4 : slook cfg "Number of lines" = some (HVal.i lines))
    (h5 : slook cfg "Samps/line" = some (HVal.i samps))
    (hoff : 0 ≤ off) (hdlen : 0 ≤ dlen) (hbpp : 0 < bpp)
    (hfile : off.toNat + dlen.toNat ≤ file.length) :
    ((∃ g, read_image_data file st t = .ok g) ↔
      (2 * Int.tdiv dlen bpp ≤ dlen ∧
        ((0 ≤ lines ∧ 0 ≤ samps ∧ Int.tdiv dlen bpp = lines * samps) ∨
          (lines < 0 ∧ 0 < samps ∧ samps ∣ Int.tdiv dlen bpp) ∨
          (samps < 0 ∧ 0 < lines ∧ lines ∣ Int.tdiv dlen bpp)))) ∧
    ((0 ≤ lines ∧ 0 ≤ samps ∧ 2 * Int.tdiv dlen bpp ≤ dlen ∧
        Int.tdiv dlen bpp ≠ lines * samps) →
      read_image_data file st t = .error .shapeMismatch) := by
  have hnum : 0 ≤ Int.tdiv dlen bpp := Int.tdiv_nonneg hdlen (le_of_lt hbpp)
  have hmulIff : ∀ a b : Int, 0 ≤ a → 0 ≤ b →
      (a.toNat * b.toNat = (Int.tdiv dlen bpp).toNat ↔ Int.tdiv dlen bpp = a * b) := by
    intro a b ha hb
    constructor
    · intro e
      have h := congrArg (Nat.cast : Nat → Int) e
      push_cast at h
      rw [Int.toNat_of_nonneg ha, Int.toNat_of_nonneg hb, Int.toNat_of_nonneg hnum] at h
      exact h.symm
    · intro e
      have h : ((a.toNat * b.toNat : Nat) : Int) = ((Int.tdiv dlen bpp).toNat : Int) := by
        push_cast
        rw [Int.toNat_of_nonneg ha, Int.toNat_of_nonneg hb, Int.toNat_of_nonneg hnum, e]
      exact_mod_cast h
  have hdvdIff : ∀ a : Int, 0 ≤ a →
      (a.toNat ∣ (Int.tdiv dlen bpp).toNat ↔ a ∣ Int.tdiv dlen bpp) := by
    intro a ha
    have h := @Int.natCast_dvd_natCast a.toNat (Int.tdiv dlen bpp).toNat
    rw [Int.toNat_of_nonneg ha, Int.toNat_of_nonneg hnum] at h
    exact h.symm
  have key : read_image_data file st t =
      (if ((file.drop off.toNat).take dlen.toNat).length <
          2 * (Int.tdiv dlen bpp).toNat then Except.error .structError
       else np_reshape lines samps
         (decodeLE16 (((file.drop off.toNat).take dlen.toNat).take
           (2 * (Int.tdiv dlen bpp).toNat)))) := by
    rw [read_image_data, if_neg (not_not_intro ht)]
    simp only [href, hcfg, h1, h2, h3, h4, h5]
    rw [if_neg (not_lt.mpr hoff), if_neg (ne_of_gt hbpp), if_neg (not_lt.mpr hdlen),
      if_neg (not_lt.mpr hnum)]
  have hlen : ((file.drop off.toNat).take dlen.toNat).length = dlen.toNat := by
    simp only [List.length_take, List.length_drop]
    omega
  rw [key, hlen]
  by_cases hshort : dlen.toNat < 2 * (Int.tdiv dlen bpp).toNat
  · rw [if_pos hshort]
    constructor
    · constructor
      · rintro ⟨g, hg⟩
        cases hg
      · rintro ⟨hle, -⟩
        exfalso
        omega
    · rintro ⟨-, -, hle, -⟩
      exfalso
      omega
  · rw [if_neg hshort]
    have hrawlen : (decodeLE16 (((file.drop off.toNat).take dlen.toNat).take
        (2 * (Int.tdiv dlen bpp).toNat))).length = (Int.tdiv dlen bpp).toNat := by
      rw [decodeLE16_length, List.length_take, hlen]
      omega
    obtain ⟨hiff, herr⟩ := np_reshape_spec lines samps
      (decodeLE16 (((file.drop off.toNat).take dlen.toNat).take
        (2 * (Int.tdiv dlen bpp).toNat)))
    rw [hrawlen] at hiff herr
    constructor
    · rw [hiff]
      constructor
      · intro h
        refine ⟨by omega, ?_⟩
        rcases h with ⟨hl, hs, e⟩ | ⟨hl, hs, hd⟩ | ⟨hl, hs, hd⟩
        · exact Or.inl ⟨hl, hs, (hmulIff lines samps hl hs).mp e⟩
        · exact Or.inr (Or.inl ⟨hl, hs, (hdvdIff samps (by omega)).mp hd⟩)
        · exact Or.inr (Or.inr ⟨hl, hs, (hdvdIff lines (by omega)).mp hd⟩)
      · rintro ⟨-, h⟩
        rcases h with ⟨hl, hs, e⟩ | ⟨hl, hs, hd⟩ | ⟨hl, hs, hd⟩
        · exact Or.inl ⟨hl, hs, (hmulIff lines samps hl hs).mpr e⟩
        · exact Or.inr (Or.inl ⟨hl, hs, (hdvdIff samps (by omega)).mpr hd⟩)
        · exact Or.inr (Or.inr ⟨hl, hs, (hdvdIff lines (by omega)).mpr hd⟩)
    · rintro ⟨hl, hs, hle, hne⟩
      apply herr
      refine ⟨hl, hs, ?_⟩
      intro e
      exact hne ((hmulIff lines samps hl hs).mp e)

theorem read_image_data_shape_witness :
    ((∃ g, read_image_data [0, 0, 0, 0, 0, 0, 0, 0]
        ⟨[], [("Height", 0)],
          [[("Data offset", HVal.i 0), ("Data length", HVal.i 8), ("Bytes/pixel", HVal.i 2),
            ("Number of lines", HVal.i 2), ("Samps/line", HVal.i 2)]]⟩ "Height" = .ok g) ↔
      (2 * Int.tdiv 8 2 ≤ (8 : Int) ∧
        (((0 : Int) ≤ 2 ∧ (0 : Int) ≤ 2 ∧ Int.tdiv 8 2 = 2 * 2) ∨
          ((2 : Int) < 0 ∧ (0 : Int) < 2 ∧ (2 : Int) ∣ Int.tdiv 8 2) ∨
          ((2 : Int) < 0 ∧ (0 : Int) < 2 ∧ (2 : Int) ∣ Int.tdiv 8 2)))) ∧
    (((0 : Int) ≤ 2 ∧ (0 : Int) ≤ 2 ∧ 2 * Int.tdiv 8 2 ≤ (8 : Int) ∧
        Int.tdiv 8 2 ≠ 2 * 2) →
      read_image_data [0, 0, 0, 0, 0, 0, 0, 0]
        ⟨[], [("Height", 0)],
          [[("Data offset", HVal.i 0), ("Data length", HVal.i 8), ("Bytes/pixel", HVal.i 2),
            ("Number of lines", HVal.i 2), ("Samps/line", HVal.i 2)]]⟩ "Height" =
        .error .shapeMismatch) :=
  read_image_data_shape [0, 0, 0, 0, 0, 0, 0, 0]
    ⟨[], [("Height", 0)],
      [[("Data offset", HVal.i 0), ("Data length", HVal.i 8), ("Bytes/pixel", HVal.i 2),
        ("Number of lines", HVal.i 2), ("Samps/line", HVal.i 2)]]⟩ "Height"
    0 [("Data offset", HVal.i 0), ("Data length", HVal.i 8), ("Bytes/pixel", HVal.i 2),
        ("Number of lines", HVal.i 2), ("Samps/line", HVal.i 2)]
    0 8 2 2 2 (by decide) rfl rfl rfl rfl rfl rfl rfl (by decide) (by decide) (by decide)
    (by decide)

/-- A successful decode has read all five required fields and found each of
them numeric: every failing lookup or non-numeric value aborts the body
before the `return`. -/
theorem read_image_data_ok_fields (file : List Nat) (st : PState) (t : String)
    (ref : Nat) (g : List (List Int))
    (href : slook st.images t = some ref)
    (hok : read_image_data file st t = .ok g) :
    ∀ k ∈ (["Data offset", "Data length", "Bytes/pixel",
        "Number of lines", "Samps/line"] : List String),
      ∃ n : Int, slook (st.heap.getD ref []) k = some (HVal.i n) := by
  rw [read_image_data] at hok
  by_cases ht : t ∉ (["Height", "Amplitude", "Phase"] : List String)
  · rw [if_pos ht] at hok
    cases hok
  · rw [if_neg ht, href] at hok
    dsimp only at hok
    cases e1 : slook (st.heap.getD ref []) "Data offset" with
    | none =>
      rw [e1] at hok
      cases hok
    | some v1 =>
      cases v1 with
      | s s1 =>
        rw [e1] at hok
        cases hok
      | pynone =>
        rw [e1] at hok
        cases hok
      | i off =>
        rw [e1] at hok
        dsimp only at hok
        by_cases c1 : off < 0
        · rw [if_pos c1] at hok
          cases hok
        · rw [if_neg c1] at hok
          cases e2 : slook (st.heap.getD ref []) "Data length" with
          | none =>
            rw [e2] at hok
            cases hok
          | some dlv =>
            cases e3 : slook (st.heap.getD ref []) "Bytes/pixel" with
            | none =>
              rw [e2, e3] at hok
              cases hok
            | some bpv =>
              cases dlv with
              | s s2 =>
                rw [e2, e3] at hok
                cases bpv <;> cases hok
              | pynone =>
                rw [e2, e3] at hok
                cases bpv <;> cases hok
              | i dlen =>
                cases bpv with
                | s s3 =>
                  rw [e2, e3] at hok
                  cases hok
                | pynone =>
                  rw [e2, e3] at hok
                  cases hok
                | i bpp =>
                  rw [e2, e3] at hok
                  dsimp only at hok
                  by_cases c2 : bpp = 0
                  · rw [if_pos c2] at hok
                    cases hok
                  · rw [if_neg c2] at hok
                    by_cases c3 : Int.tdiv dlen bpp < 0
                    · rw [if_pos c3] at hok
                      cases hok
                    · rw [if_neg c3] at hok
                      by_cases c4 : (if dlen < 0 then file.drop off.toNat
                          else (file.drop off.toNat).take dlen.toNat).length <
                          2 * (Int.tdiv dlen bpp).toNat
                      · rw [if_pos c4] at hok
                        cases hok
                      · rw [if_neg c4] at hok
                        cases e4 : slook (st.heap.getD ref []) "Number of lines" with
                        | none =>
                          rw [e4] at hok
                          cases hok
                        | some lv =>
                          cases e5 : slook (st.heap.getD ref []) "Samps/line" with
                          | none =>
                            rw [e4, e5] at hok
                            cases hok
                          | some sv =>
                            cases lv with
                            | s s4 =>
                              rw [e4, e5] at hok
                              cases sv <;> cases hok
                            | pynone =>
                              rw [e4, e5] at hok
                              cases sv <;> cases hok
                            | i lines =>
                              cases sv with
                              | s s5 =>
                                rw [e4, e5] at hok
                                cases hok
                              | pynone =>
                                rw [e4, e5] at hok
                                cases hok
                              | i samps =>
                                intro k hk
                                simp only [List.mem_cons, List.mem_singleton] at hk
                                rcases hk with rfl | rfl | rfl | rfl | rfl | h
                                · exact ⟨off, e1⟩
                                · exact ⟨dlen, e2⟩
                                · exact ⟨bpp, e3⟩
                                · exact ⟨lines, e4⟩
                                · exact ⟨samps, e5⟩
                                · cases h

/-- C5 — for a registered channel whose configuration misses one of the
required fields, or carries a non-numeric value for it, `read_image_data`
never returns a grid: it fails with one of the typed decode errors
(`KeyError`, `TypeError`, or an arithmetic/unpack error met on the way). -/
theorem read_image_data_malformed (file : List Nat) (st : PState) (t : String)
    (ref : Nat) (href : slook st.images t = some ref)
    (hbad : ∃ k ∈ (["Data offset", "Data length", "Bytes/pixel",
        "Number of lines", "Samps/line"] : List String),
      ∀ n : Int, slook (st.heap.getD ref []) k ≠ some (HVal.i n)) :
    ∃ e, read_image_data file st t = .error e := by
  cases hres : read_image_data file st t with
  | error e => exact ⟨e, rfl⟩
  | ok g =>
    obtain ⟨k, hk, hn⟩ := hbad
    obtain ⟨n, hsome⟩ := read_image_data_ok_fields file st t ref g href hres k hk
    exact absurd hsome (hn n)

theorem read_image_data_malformed_witness :
    slook (⟨[], [("Height", 0)], [[]]⟩ : PState).images "Height" = some 0 ∧
    ("Data offset" ∈ (["Data offset", "Data length", "Bytes/pixel",
        "Number of lines", "Samps/line"] : List String)) ∧
    (∀ n : Int,
      slook ((⟨[], [("Height", 0)], [[]]⟩ : PState).heap.getD 0 []) "Data offset" ≠
        some (HVal.i n)) ∧
    ∃ e, read_image_data [] ⟨[], [("Height", 0)], [[]]⟩ "Height" = .error e :=
  ⟨rfl, by decide, fun n => by simp,
    read_image_data_malformed [] ⟨[], [("Height", 0)], [[]]⟩ "Height" 0 rfl
      ⟨"Data offset", by decide, fun n => by simp⟩⟩

/-- C6 — inside one `"Ciao image list"` section, consuming an
`"Image Data"` string attribute immediately registers the in-progress
configuration dictionary (the section's heap cell `st.heap.length`) in the
channel map under the designation: the registration is visible for *every*
continuation `l₂` of the section, including an empty or never-terminated
one, so it precedes the end of the section.  And every scalar attribute
consumed later in the same section (before the section-ending header) has
its key stored in that same registered dictionary. -/
theorem section_registration (l₁ l₂ : List Parameter) (p : Parameter) (st : PState)
    (d : String)
    (h₁ : ∀ q ∈ l₁, q.type ≠ "H")
    (hp : p.type = "S") (hpn : p.parameter = "Image Data")
    (hd : p.internal_designation = d) :
    slook ((read_image_header (l₁ ++ p :: l₂) st).2.2).images d = some st.heap.length ∧
    (∀ l₂a q l₂b, l₂ = l₂a ++ q :: l₂b → (∀ r ∈ l₂a, r.type ≠ "H") →
      q.type ≠ "H" → q.type ≠ "S" →
      (slookHeap ((read_image_header (l₁ ++ p :: l₂) st).2.2) st.heap.length
        q.parameter).isSome = true) := by
  constructor
  · subst hd
    exact rih_registers l₁ l₂ p st.heap.length st.alloc h₁ hp hpn
  · rintro l₂a q l₂b rfl ha hqH hqS
    have hl₀ : ∀ r ∈ l₁ ++ p :: l₂a, r.type ≠ "H" := by
      intro r hr
      rcases List.mem_append.mp hr with h | h
      · exact h₁ r h
      · rcases List.mem_cons.mp h with rfl | h
        · rw [hp]
          decide
        · exact ha r h
    have hlen : st.heap.length < st.alloc.heap.length := by
      rw [alloc_heap_length]
      exact Nat.lt_succ_self _
    have := rih_scalarKey (l₁ ++ p :: l₂a) l₂b q st.heap.length st.alloc hl₀ hqH hqS hlen
    rw [read_image_header]
    simpa [List.append_assoc] using this

theorem section_registration_witness :
    slook ((read_image_header [⟨"S", "Image Data", "", "Height", HVal.pynone⟩,
        ⟨"V", "Samps/line", "", "", HVal.i 4⟩] initState).2.2).images "Height" =
      some initState.heap.length ∧
    (slookHeap ((read_image_header [⟨"S", "Image Data", "", "Height", HVal.pynone⟩,
        ⟨"V", "Samps/line", "", "", HVal.i 4⟩] initState).2.2) initState.heap.length
      "Samps/line").isSome = true := by
  obtain ⟨a, b⟩ := section_registration [] [⟨"V", "Samps/line", "", "", HVal.i 4⟩]
    ⟨"S", "Image Data", "", "Height", HVal.pynone⟩ initState "Height" (by decide) rfl rfl rfl
  exact ⟨a, b [] ⟨"V", "Samps/line", "", "", HVal.i 4⟩ [] rfl (by decide) (by decide)
    (by decide)⟩

/-- C10 — a full parse of two `"Ciao image list"` sections.  Every
`"Image Data"` designation seen in the second section is registered to that
section's single shared dictionary (heap cell `1`), so every scalar of the
section is reachable under every such designation; and a designation `d`
that already appeared in the first section (dictionary `0`) now resolves to
dictionary `1`: the later section's registration wins. -/
theorem channel_last_write_wins
    (secA secB : List Parameter) (pA pB pC pE : Parameter) (d : String)
    (hA : ∀ q ∈ secA, q.type ≠ "H") (hB : ∀ q ∈ secB, q.type ≠ "H")
    (hpC : pC.type = "H" ∧ pC.header = "Ciao image list")
    (hpE : pE.type = "H" ∧ pE.header = "File list end")
    (hpA : pA ∈ secA ∧ pA.type = "S" ∧ pA.parameter = "Image Data" ∧
      pA.internal_designation = d)
    (hpB : pB ∈ secB ∧ pB.type = "S" ∧ pB.parameter = "Image Data" ∧
      pB.internal_designation = d) :
    ∃ stF, read_header (pC :: (secA ++ pC :: (secB ++ [pE]))) initState = .ok stF ∧
      slook stF.images d = some 1 ∧
      (∀ q ∈ secB, q.type = "S" → q.parameter = "Image Data" →
        slook stF.images q.internal_designation = some 1) ∧
      (∀ q ∈ secB, q.type ≠ "S" → (slookHeap stF 1 q.parameter).isSome = true) := by
  obtain ⟨hpBm, hpBS, hpBn, hpBd⟩ := hpB
  have hCnotEnd : pC.header ≠ "File list end" := by
    rw [hpC.2]
    decide
  have e1 : read_image_header (secA ++ pC :: (secB ++ [pE])) initState =
      (some pC, secB ++ [pE], (rih_loop secA 0 initState.alloc).2.2) := by
    rw [read_image_header]
    exact rih_chain secA (secB ++ [pE]) pC 0 initState.alloc hA hpC.1
  have hlenA : (rih_loop secA 0 initState.alloc).2.2.heap.length = 1 := by
    rw [rih_heap_length]
    rfl
  have e2 : read_image_header (secB ++ [pE]) (rih_loop secA 0 initState.alloc).2.2 =
      (some pE, [],
        (rih_loop secB 1 (rih_loop secA 0 initState.alloc).2.2.alloc).2.2) := by
    rw [read_image_header, hlenA]
    exact rih_chain secB [] pE 1 _ hB hpE.1
  have e3 : handle_parameter pC (secA ++ pC :: (secB ++ [pE])) initState =
      .ok (true, [], (rih_loop secB 1 (rih_loop secA 0 initState.alloc).2.2.alloc).2.2) := by
    rw [handle_parameter_ciao _ _ _ _ _ _ hpC.1 hCnotEnd hpC.2 e1,
      handle_parameter_ciao _ _ _ _ _ _ hpC.1 hCnotEnd hpC.2 e2,
      handle_parameter_end _ _ _ hpE.1 hpE.2]
  have e4 : read_header (pC :: (secA ++ pC :: (secB ++ [pE]))) initState =
      .ok (rih_loop secB 1 (rih_loop secA 0 initState.alloc).2.2.alloc).2.2 := by
    rw [read_header_cons_ok _ _ _ _ _ _ (by rintro ⟨a, -, -⟩; exact a hpC.1) e3]
    rfl
  have hlenB : (1 : Nat) < (rih_loop secA 0 initState.alloc).2.2.alloc.heap.length := by
    rw [alloc_heap_length, hlenA]
    exact Nat.lt_succ_self 1
  refine ⟨_, e4, ?_, ?_, ?_⟩
  · obtain ⟨u, v, rfl⟩ := List.append_of_mem hpBm
    have hu : ∀ r ∈ u, r.type ≠ "H" := fun r hr => hB r (by simp [hr])
    rw [← hpBd]
    exact rih_registers u v pB 1 _ hu hpBS hpBn
  · intro q hq hqS hqn
    obtain ⟨u, v, rfl⟩ := List.append_of_mem hq
    have hu : ∀ r ∈ u, r.type ≠ "H" := fun r hr => hB r (by simp [hr])
    exact rih_registers u v q 1 _ hu hqS hqn
  · intro q hq hqS
    obtain ⟨u, v, rfl⟩ := List.append_of_mem hq
    have hu : ∀ r ∈ u, r.type ≠ "H" := fun r hr => hB r (by simp [hr])
    exact rih_scalarKey u v q 1 _ hu (hB q hq) hqS hlenB

theorem channel_last_write_wins_witness :
    ∃ stF, read_header (⟨"H", "", "Ciao image list", "", HVal.pynone⟩ ::
        ([⟨"S", "Image Data", "", "Height", HVal.pynone⟩] ++
          ⟨"H", "", "Ciao image list", "", HVal.pynone⟩ ::
            ([⟨"S", "Image Data", "", "Height", HVal.pynone⟩,
              ⟨"V", "Samps/line", "", "", HVal.i 4⟩] ++
              [⟨"H", "", "File list end", "", HVal.pynone⟩]))) initState = .ok stF ∧
      slook stF.images "Height" = some 1 ∧
      (∀ q ∈ ([⟨"S", "Image Data", "", "Height", HVal.pynone⟩,
          ⟨"V", "Samps/line", "", "", HVal.i 4⟩] : List Parameter), q.type = "S" →
        q.parameter = "Image Data" → slook stF.images q.internal_designation = some 1) ∧
      (∀ q ∈ ([⟨"S", "Image Data", "", "Height", HVal.pynone⟩,
          ⟨"V", "Samps/line", "", "", HVal.i 4⟩] : List Parameter), q.type ≠ "S" →
        (slookHeap stF 1 q.parameter).isSome = true) :=
  channel_last_write_wins [⟨"S", "Image Data", "", "Height", HVal.pynone⟩]
    [⟨"S", "Image Data", "", "Height", HVal.pynone⟩, ⟨"V", "Samps/line", "", "", HVal.i 4⟩]
    ⟨"S", "Image Data", "", "Height", HVal.pynone⟩
    ⟨"S", "Image Data", "", "Height", HVal.pynone⟩
    ⟨"H", "", "Ciao image list", "", HVal.pynone⟩
    ⟨"H", "", "File list end", "", HVal.pynone⟩ "Height"
    (by decide) (by decide) (by decide) (by decide) (by decide) (by decide)

/-- The designations of the `"Image Data"` string attributes appearing in a
section body before its first header record. -/
def sectIm : List Parameter → List String
  | [] => []
  | p :: rest =>
    if p.type = "H" then []
    else if p.type = "S" ∧ p.parameter = "Image Data" then
      p.internal_designation :: sectIm rest
    else sectIm rest

theorem specDesignations_header (p : Parameter) (rest : List Parameter) (b : Bool)
    (h : p.type = "H") :
    specDesignations (p :: rest) b = specDesignations (p :: rest) false := by
  simp [specDesignations, h]

/-- The channel names visible after a run of the section loop: those
already visible plus the designations collected before the section's first
header. -/
theorem rih_images_iff (l : List Parameter) (ref : Nat) (st : PState) (d : String) :
    (slook ((rih_loop l ref st).2.2).images d).isSome = true ↔
      (slook st.images d).isSome = true ∨ d ∈ sectIm l := by
  induction l generalizing st with
  | nil => simp [rih_loop, sectIm]
  | cons p rest ih =>
    by_cases h1 : p.type = "H"
    · rw [rih_loop, if_pos h1, sectIm, if_pos h1]
      simp
    · by_cases h2 : p.type = "S"
      · by_cases h3 : p.parameter = "Image Data"
        · rw [rih_loop, if_neg h1, if_pos h2, if_pos h3, sectIm, if_neg h1,
            if_pos ⟨h2, h3⟩, ih]
          by_cases h4 : p.internal_designation = d
          · simp [PState.register, PState.setHeap, h4]
          · simp [PState.register, PState.setHeap, h4, Ne.symm h4]
        · rw [rih_loop, if_neg h1, if_pos h2, if_neg h3, sectIm, if_neg h1,
            if_neg (by rintro ⟨-, c⟩; exact h3 c), ih]
      · rw [rih_loop, if_neg h1, if_neg h2, sectIm, if_neg h1,
          if_neg (by rintro ⟨c, -⟩; exact h2 c), ih]
        simp [PState.setHeap]

/-- If the section loop exhausts the stream, the specification walk (which
demands a later top-level `"File list end"`) yields no designation list. -/
theorem rih_spec_none (l : List Parameter) (ref : Nat) (st : PState)
    (h : (rih_loop l ref st).1 = none) : specDesignations l true = none := by
  induction l generalizing st with
  | nil => rfl
  | cons p rest ih =>
    by_cases h1 : p.type = "H"
    · rw [rih_loop, if_pos h1] at h
      simp at h
    · by_cases h2 : p.type = "S"
      · by_cases h3 : p.parameter = "Image Data"
        · rw [rih_loop, if_neg h1, if_pos h2, if_pos h3] at h
          rw [specDesignations, if_neg h1, if_pos ⟨rfl, h2, h3⟩, ih _ h]
          rfl
        · rw [rih_loop, if_neg h1, if_pos h2, if_neg h3] at h
          rw [specDesignations, if_neg h1, if_neg (by rintro ⟨-, -, c⟩; exact h3 c)]
          exact ih _ h
      · rw [rih_loop, if_neg h1, if_neg h2] at h
        rw [specDesignations, if_neg h1, if_neg (by rintro ⟨-, c, -⟩; exact h2 c)]
        exact ih _ h

/-- If the section loop stops at a header `q`, the specification walk of
the section splits into the designations collected inside the section
followed by the walk that re-dispatches `q` at top level. -/
theorem rih_spec_some (l : List Parameter) (ref : Nat) (st : PState)
    (q : Parameter) (rest' : List Parameter) (st' : PState)
    (h : rih_loop l ref st = (some q, rest', st')) :
    specDesignations l true =
      (specDesignations (q :: rest') false).map (sectIm l ++ ·) := by
  induction l generalizing st with
  | nil => simp [rih_loop] at h
  | cons p rest ih =>
    by_cases h1 : p.type = "H"
    · rw [rih_loop, if_pos h1] at h
      simp only [Prod.mk.injEq, Option.some.injEq] at h
      obtain ⟨rfl, rfl, rfl⟩ := h
      rw [specDesignations_header p rest true h1, sectIm, if_pos h1]
      cases hX : specDesignations (p :: rest) false <;> simp
    · by_cases h2 : p.type = "S"
      · by_cases h3 : p.parameter = "Image Data"
        · rw [rih_loop, if_neg h1, if_pos h2, if_pos h3] at h
          rw [specDesignations, if_neg h1, if_pos ⟨rfl, h2, h3⟩, ih _ h, sectIm,
            if_neg h1, if_pos ⟨h2, h3⟩]
          cases hX : specDesignations (q :: rest') false <;> simp
        · rw [rih_loop, if_neg h1, if_pos h2, if_neg h3] at h
          rw [specDesignations, if_neg h1, if_neg (by rintro ⟨-, -, c⟩; exact h3 c),
            ih _ h, sectIm, if_neg h1, if_neg (by rintro ⟨-, c⟩; exact h3 c)]
      · rw [rih_loop, if_neg h1, if_neg h2] at h
        rw [specDesignations, if_neg h1, if_neg (by rintro ⟨-, c, -⟩; exact h2 c),
          ih _ h, sectIm, if_neg h1, if_neg (by rintro ⟨c, -⟩; exact h2 c)]

/-- One `_handle_parameter` dispatch against the specification walk: a
`True` return means the walk terminates here with some designation list, a
`False` return means the walk continues on the leftover stream after
contributing a prefix of designations; in both cases the channel names
visible afterwards are those visible before plus that contribution. -/
theorem handle_parameter_spec (p : Parameter) (rest : List Parameter) (st : PState) :
    (∀ rest' st', handle_parameter p rest st = .ok (true, rest', st') →
      ∃ ds, specDesignations (p :: rest) false = some ds ∧
        ∀ d, (slook st'.images d).isSome = true ↔
          (slook st.images d).isSome = true ∨ d ∈ ds) ∧
    (∀ rest' st', handle_parameter p rest st = .ok (false, rest', st') →
      ∃ ds, specDesignations (p :: rest) false =
          (specDesignations rest' false).map (ds ++ ·) ∧
        ∀ d, (slook st'.images d).isSome = true ↔
          (slook st.images d).isSome = true ∨ d ∈ ds) := by
  induction p, rest, st using handle_parameter.induct with
  | case1 p rest st h1 h2 =>
    constructor
    · intro rest' st' h
      rw [handle_parameter_end _ _ _ h1 h2] at h
      cases h
      exact ⟨[], by rw [specDesignations, if_pos h1, if_pos h2], by simp⟩
    · intro rest' st' h
      rw [handle_parameter_end _ _ _ h1 h2] at h
      cases h
  | case2 p rest st h1 h2 h3 rest₁ st₁ heq =>
    have herr : handle_parameter p rest st = .error .attributeError :=
      handle_parameter_ciao_none _ _ _ h1 h2 h3 (by rw [heq])
    constructor
    · intro rest' st' h
      rw [herr] at h
      cases h
    · intro rest' st' h
      rw [herr] at h
      cases h
  | case3 p rest st h1 h2 h3 q rest₁ st₁ heq ih =>
    have heq0 := heq
    rw [read_image_header] at heq0
    have hspec1 : specDesignations rest true =
        (specDesignations (q :: rest₁) false).map (sectIm rest ++ ·) :=
      rih_spec_some rest st.heap.length st.alloc q rest₁ st₁ heq0
    have him1 : ∀ d, (slook st₁.images d).isSome = true ↔
        (slook st.images d).isSome = true ∨ d ∈ sectIm rest := by
      intro d
      have h := rih_images_iff rest st.heap.length st.alloc d
      rw [heq0] at h
      simpa using h
    have hspecTop : specDesignations (p :: rest) false = specDesignations rest true := by
      rw [specDesignations, if_pos h1, if_neg h2, if_pos h3]
    constructor
    · intro rest' st' h
      rw [handle_parameter_ciao _ _ _ _ _ _ h1 h2 h3 heq] at h
      obtain ⟨ds₂, hs₂, hi₂⟩ := ih.1 rest' st' h
      refine ⟨sectIm rest ++ ds₂, ?_, ?_⟩
      · rw [hspecTop, hspec1, hs₂]
        rfl
      · intro d
        rw [hi₂ d, him1 d]
        simp [List.mem_append, or_assoc]
    · intro rest' st' h
      rw [handle_parameter_ciao _ _ _ _ _ _ h1 h2 h3 heq] at h
      obtain ⟨ds₂, hs₂, hi₂⟩ := ih.2 rest' st' h
      refine ⟨sectIm rest ++ ds₂, ?_, ?_⟩
      · rw [hspecTop, hspec1, hs₂]
        cases hX : specDesignations rest' false <;> simp [List.append_assoc]
      · intro d
        rw [hi₂ d, him1 d]
        simp [List.mem_append, or_assoc]
  | case4 p rest st h1 h2 h3 =>
    constructor
    · intro rest' st' h
      rw [handle_parameter_otherH _ _ _ h1 h2 h3] at h
      cases h
    · intro rest' st' h
      rw [handle_parameter_otherH _ _ _ h1 h2 h3] at h
      cases h
      refine ⟨[], ?_, by simp⟩
      rw [specDesignations, if_pos h1, if_neg h2, if_neg h3]
      cases hX : specDesignations rest false <;> simp
  | case5 p rest st h1 h2 =>
    constructor
    · intro rest' st' h
      rw [handle_parameter_stringAttr _ _ _ h1 h2] at h
      cases h
    · intro rest' st' h
      rw [handle_parameter_stringAttr _ _ _ h1 h2] at h
      cases h
      refine ⟨[], ?_, by simp⟩
      rw [specDesignations, if_neg h1, if_neg (by simp)]
      cases hX : specDesignations rest false <;> simp
  | case6 p rest st h1 h2 =>
    constructor
    · intro rest' st' h
      rw [handle_parameter_scalar _ _ _ h1 h2] at h
      cases h
    · intro rest' st' h
      rw [handle_parameter_scalar _ _ _ h1 h2] at h
      cases h
      refine ⟨[], ?_, by simp⟩
      rw [specDesignations, if_neg h1, if_neg (by simp)]
      cases hX : specDesignations rest false <;> simp

/-- The top-level loop against the specification walk, for every starting
state: on success the walk must have terminated, and the channel names
registered are the starting ones plus the collected designations. -/
theorem read_header_spec (ps : List Parameter) (st : PState) :
    ∀ (ds : List String) (st' : PState),
      specDesignations ps false = some ds → read_header ps st = .ok st' →
      ∀ d, (slook st'.images d).isSome = true ↔
        (slook st.images d).isSome = true ∨ d ∈ ds := by
  induction ps, st using read_header.induct with
  | case1 st => exact fun ds st' hspec => nomatch hspec
  | case2 p rest st hver =>
    intro ds st' hspec hrun
    rw [read_header, if_pos hver] at hrun
    cases hrun
  | case3 p rest st hver e heq =>
    intro ds st' hspec hrun
    rw [read_header_cons_err _ _ _ _ hver heq] at hrun
    cases hrun
  | case4 p rest st hver rest2 st2 heq =>
    intro ds st' hspec hrun
    rw [read_header_cons_ok _ _ _ _ _ _ hver heq, if_pos rfl] at hrun
    cases hrun
    obtain ⟨ds₀, hs₀, hi₀⟩ := (handle_parameter_spec p rest st).1 rest2 st2 heq
    rw [hspec] at hs₀
    obtain rfl := Option.some.inj hs₀
    exact hi₀
  | case5 p rest st hver rest2 st2 heq ih =>
    intro ds st' hspec hrun
    rw [read_header_cons_ok _ _ _ _ _ _ hver heq, if_neg (by simp)] at hrun
    obtain ⟨ds₀, hs₀, hi₀⟩ := (handle_parameter_spec p rest st).2 rest2 st2 heq
    rw [hspec] at hs₀
    cases hX : specDesignations rest2 false with
    | none =>
      rw [hX] at hs₀
      cases hs₀
    | some ds₁ =>
      rw [hX] at hs₀
      have hds : ds = ds₀ ++ ds₁ := by simpa using hs₀
      intro d
      rw [ih ds₁ st' hX hrun d, hi₀ d, hds]
      simp [List.mem_append, or_assoc]

/-- C4 — for a well-formed header stream (one the two-state specification
walk accepts, collecting the designations `ds` of the `"Image Data"`
string attributes inside `"Ciao image list"` sections before the
terminating `"File list end"`), a successful `read_header` run from a
fresh parser yields a channel map whose key set is exactly `ds`: a section
with no `"Image Data"` attribute contributes nothing. -/
theorem parse_channels_exact (ps : List Parameter) (ds : List String) (st' : PState)
    (hspec : specDesignations ps false = some ds)
    (hrun : read_header ps initState = .ok st') :
    ∀ d, (slook st'.images d).isSome = true ↔ d ∈ ds := by
  intro d
  have h := read_header_spec ps initState ds st' hspec hrun d
  simpa [initState] using h

theorem parse_channels_exact_witness :
    specDesignations [⟨"H", "", "Ciao image list", "", HVal.pynone⟩,
        ⟨"S", "Image Data", "", "Height", HVal.pynone⟩,
        ⟨"V", "Samps/line", "", "", HVal.i 4⟩,
        ⟨"H", "", "File list end", "", HVal.pynone⟩] false = some ["Height"] ∧
    read_header [⟨"H", "", "Ciao image list", "", HVal.pynone⟩,
        ⟨"S", "Image Data", "", "Height", HVal.pynone⟩,
        ⟨"V", "Samps/line", "", "", HVal.i 4⟩,
        ⟨"H", "", "File list end", "", HVal.pynone⟩] initState =
      .ok ⟨[], [("Height", 0)],
        [[("Samps/line", HVal.i 4), ("Image Data", HVal.s "Height")]]⟩ ∧
    (∀ d, (slook (⟨[], [("Height", 0)],
        [[("Samps/line", HVal.i 4), ("Image Data", HVal.s "Height")]]⟩ :
          PState).images d).isSome = true ↔ d ∈ ["Height"]) := by
  have hrun : read_header [⟨"H", "", "Ciao image list", "", HVal.pynone⟩,
      ⟨"S", "Image Data", "", "Height", HVal.pynone⟩,
      ⟨"V", "Samps/line", "", "", HVal.i 4⟩,
      ⟨"H", "", "File list end", "", HVal.pynone⟩] initState =
      .ok ⟨[], [("Height", 0)],
        [[("Samps/line", HVal.i 4), ("Image Data", HVal.s "Height")]]⟩ := by
    rw [read_header_cons_ok _ _ _ _ _ _ (by decide) ?hh, if_pos rfl]
    case hh =>
      rw [handle_parameter_ciao _ _ _
          ⟨"H", "", "File list end", "", HVal.pynone⟩ [] _ rfl (by decide) rfl ?hrih,
        handle_parameter_end _ _ _ rfl rfl]
      case hrih => rfl
  exact ⟨rfl, hrun,
    parse_channels_exact [⟨"H", "", "Ciao image list", "", HVal.pynone⟩,
      ⟨"S", "Image Data", "", "Height", HVal.pynone⟩,
      ⟨"V", "Samps/line", "", "", HVal.i 4⟩,
      ⟨"H", "", "File list end", "", HVal.pynone⟩] ["Height"] _ rfl hrun⟩

/-! ### Scanline leveling -/

theorem polyEvalAt_single (c : ℚ) (i : Nat) : polyEvalAt [c] i = c := by
  simp [polyEvalAt]

theorem enumFrom_map_snd {α β : Type} (f : α → β) :
    ∀ (n : Nat) (l : List α), (List.enumFrom n l).map (fun ix => f ix.2) = l.map f
  | _, [] => rfl
  | n, a :: l => by
    simp only [List.enumFrom, List.map_cons, List.map]
    rw [enumFrom_map_snd f (n + 1) l]

theorem flatten_scanline_const (data : List ℚ) (c : ℚ) :
    flatten_scanline data [c] = data.map (fun x => x - c) := by
  rw [flatten_scanline, List.enum]
  rw [List.map_congr_left (g := fun ix : Nat × ℚ => ix.2 - c)
    (fun ix _ => by rw [polyEvalAt_single])]
  exact enumFrom_map_snd (fun y => y - c) 0 data

theorem sqResid_const (data : List ℚ) (c : ℚ) :
    sqResid data [c] = (data.map (fun y => (c - y) ^ 2)).sum := by
  rw [sqResid, List.enum]
  rw [List.map_congr_left (g := fun ix : Nat × ℚ => (c - ix.2) ^ 2)
    (fun ix _ => by rw [polyEvalAt_single])]
  rw [enumFrom_map_snd (fun y => (c - y) ^ 2) 0 data]

theorem sum_sq_expand (c : ℚ) : ∀ data : List ℚ,
    (data.map (fun y => (c - y) ^ 2)).sum =
      (data.length : ℚ) * c ^ 2 - 2 * c * data.sum + (data.map (fun y => y ^ 2)).sum
  | [] => by simp
  | a :: l => by
    simp only [List.map_cons, List.sum_cons, sum_sq_expand c l, List.length_cons]
    push_cast
    ring

theorem sqResid_decomp (data : List ℚ) (hne : data ≠ []) (c : ℚ) :
    sqResid data [c] =
      sqResid data [mean data] + (data.length : ℚ) * (c - mean data) ^ 2 := by
  have hn : (data.length : ℚ) ≠ 0 :=
    Nat.cast_ne_zero.mpr (by simpa using (List.length_pos.mpr hne).ne')
  rw [sqResid_const, sqResid_const, sum_sq_expand, sum_sq_expand, mean]
  field_simp
  ring

/-- The arithmetic mean is a least-squares constant fit. -/
theorem mean_isPolyfit0 (data : List ℚ) (hne : data ≠ []) :
    IsPolyfit0 data (mean data) := by
  intro c'
  rw [sqResid_decomp data hne c']
  have h : 0 ≤ (data.length : ℚ) * (c' - mean data) ^ 2 := by positivity
  linarith

/-- A least-squares constant fit of a non-empty row is its mean. -/
theorem polyfit0_eq_mean (data : List ℚ) (c : ℚ) (hne : data ≠ [])
    (hc : IsPolyfit0 data c) : c = mean data := by
  have h1 := hc (mean data)
  rw [sqResid_decomp data hne c] at h1
  have hn : (0 : ℚ) < data.length := by
    exact_mod_cast List.length_pos.mpr hne
  have h4 : (c - mean data) ^ 2 = 0 := by nlinarith [sq_nonneg (c - mean data)]
  have h5 : c - mean data = 0 := by
    exact pow_eq_zero_iff (two_ne_zero) |>.mp h4
  linarith

/-- C9 — `_flatten_scanline` at order 0: with the external `np.polyfit`
returning a least-squares constant coefficient `c` for the non-empty row,
the returned row has the same length and equals the input with the row's
arithmetic mean subtracted from every element. -/
theorem flatten_scanline_order0 (data : List ℚ) (c : ℚ)
    (hne : data ≠ []) (hc : IsPolyfit0 data c) :
    (flatten_scanline data [c]).length = data.length ∧
    flatten_scanline data [c] = data.map (fun x => x - mean data) := by
  obtain rfl := polyfit0_eq_mean data c hne hc
  exact ⟨by simp [flatten_scanline], flatten_scanline_const data (mean data)⟩

theorem flatten_scanline_order0_witness :
    (([1, 2, 3] : List ℚ) ≠ []) ∧ IsPolyfit0 [1, 2, 3] 2 ∧
    (flatten_scanline [1, 2, 3] [2]).length = 3 ∧
    flatten_scanline [1, 2, 3] [2] =
      ([1, 2, 3] : List ℚ).map (fun x => x - mean [1, 2, 3]) := by
  have hm : mean ([1, 2, 3] : List ℚ) = 2 := by
    norm_num [mean, List.sum_cons, List.sum_nil]
  have hpf : IsPolyfit0 ([1, 2, 3] : List ℚ) 2 := by
    have h := mean_isPolyfit0 [1, 2, 3] (by simp)
    rwa [hm] at h
  obtain ⟨a, b⟩ := flatten_scanline_order0 [1, 2, 3] 2 (by simp) hpf
  refine ⟨by simp, hpf, ?_, b⟩
  rw [a]
  rfl

end Nanoscope
